import Mathlib

set_option maxRecDepth 8192

/-!
Shallow embedding of the core pooling, allocation and synchronization logic
of a minimal Direct3D12 graphics runtime (src/graphics.rs), together with
proofs of the stated properties of its specification.

Modelling conventions:
* Raw native pointers (`WeakPtr<T>`) are modelled as natural numbers, with
  `0` standing for the null pointer; `WeakPtr::release` nulls the pointer and
  returns the COM reference count reported by the external `Release` call,
  which the model threads through as an explicit argument.
* Machine integers (`u16`, `u32`, `u64`) are modelled as `Nat`; where the
  source relies on wrapping (the `u16` generation counters), the arithmetic
  is made explicit with `% 65536`.  `u32`/`u64` quantities in the allocators
  stay far below their bounds, so plain `Nat` arithmetic agrees with the
  machine arithmetic there under the smallness hypotheses stated in the
  theorems.
* A Rust `assert!` failure (a panic, fatal by design) is modelled by an
  `Option`/dedicated-constructor `none`-like result.
* External effects (command-list recording, fence wait) are modelled by the
  values they return or the data they emit.
-/

/-! ## Constants (src/graphics.rs lines 31-32, D3D12 enum values) -/

def MAX_NUM_RESOURCES : Nat := 256

def MAX_NUM_PIPELINES : Nat := 256

def D3D12_RESOURCE_STATE_COMMON : Nat := 0

def DXGI_FORMAT_UNKNOWN : Nat := 0

/-! ## Resource handles and the resource slot pool (src/graphics.rs 65-93, 281-323) -/

/-- Handle type `Dx12ResourceHandle { index: u16, generation: u16 }`. -/
structure Dx12ResourceHandle where
  index : Nat
  generation : Nat
deriving DecidableEq, Repr

/-- Slot payload `ResourceState { ptr, state, format }`; `ptr = 0` is null. -/
structure ResourceState where
  ptr : Nat
  state : Nat
  format : Nat
deriving DecidableEq, Repr

instance : Inhabited ResourceState := ⟨⟨0, D3D12_RESOURCE_STATE_COMMON, DXGI_FORMAT_UNKNOWN⟩⟩

/-- Pool `ResourcePool { resources: Vec<ResourceState>, generations: Vec<u16> }`. -/
structure ResourcePool where
  resources : List ResourceState
  generations : List Nat
deriving DecidableEq, Repr

/-- Constructor `ResourcePool::new`: `MAX_NUM_RESOURCES + 1` empty slots. -/
def ResourcePool.new : ResourcePool :=
  { resources := List.replicate (MAX_NUM_RESOURCES + 1) default
    generations := List.replicate (MAX_NUM_RESOURCES + 1) 0 }

/-- The linear free-slot scan of `ResourcePool::add`: walk the slots starting
at index 1 and return the index of the first slot whose pointer is null,
or 0 when no slot is free (the initial value of `slot_idx`). -/
def findFreeSlotAux : List ResourceState → Nat → Nat
  | [], _ => 0
  | r :: rest, i => if r.ptr = 0 then i else findFreeSlotAux rest (i + 1)

/-- Free-slot search over indices `1..resources.len()` as in the source loop. -/
def ResourcePool.findFreeSlot (p : ResourcePool) : Nat :=
  findFreeSlotAux (p.resources.drop 1) 1

/-- Operation `ResourcePool::add` (src/graphics.rs 296-322): find the first
free slot, assert it is in range, store the payload, increment the slot's
`u16` generation counter (wrapping at 65536) and return a handle carrying the
new generation.  `none` models the assertion failure on pool exhaustion. -/
def ResourcePool.add (p : ResourcePool) (resource : Nat) (initial_state : Nat)
    (format : Nat) : Option (Dx12ResourceHandle × ResourcePool) :=
  let slot_idx := p.findFreeSlot
  if slot_idx > 0 ∧ slot_idx ≤ MAX_NUM_RESOURCES then
    let newGen := (p.generations.getD slot_idx 0 + 1) % 65536
    some (⟨slot_idx, newGen⟩,
      { resources := p.resources.set slot_idx
          { ptr := resource, state := initial_state, format := format }
        generations := p.generations.set slot_idx newGen })
  else
    none

/-- Check `Dx12Context::validate_resource_state` (src/graphics.rs 652-657):
index in `1..=MAX_NUM_RESOURCES`, generation matches the slot's counter, and
the slot's pointer is non-null.  `true` means all three assertions pass. -/
def validate_resource_state (p : ResourcePool) (handle : Dx12ResourceHandle) : Bool :=
  decide (handle.index > 0) && decide (handle.index ≤ MAX_NUM_RESOURCES) &&
    (handle.generation == p.generations.getD handle.index 0) &&
    ((p.resources.getD handle.index default).ptr != 0)

/-- Operation `Dx12Context::destroy_resource` (src/graphics.rs 714-722):
validate the handle, release the native pointer (nulling it; `refcount` is
the count reported by the external COM `Release`, asserted to be zero) and
reset the slot's state and format.  The generation counter is not touched. -/
def destroy_resource (p : ResourcePool) (handle : Dx12ResourceHandle)
    (refcount : Nat) : Option ResourcePool :=
  if validate_resource_state p handle then
    if refcount = 0 then
      some { p with resources := (p.resources.set handle.index
              { ptr := 0, state := D3D12_RESOURCE_STATE_COMMON,
                format := DXGI_FORMAT_UNKNOWN }) }
    else
      none
  else
    none

/-- A native transition barrier as built by `Dx12ResourceBarrier::transition`
(src/graphics.rs 126-142): the resource pointer and the before/after states. -/
structure TransitionBarrier where
  resource : Nat
  state_before : Nat
  state_after : Nat
deriving DecidableEq, Repr

/-- Operation `Dx12Context::transition_barrier` (src/graphics.rs 724-740):
validate the handle, then emit one native barrier and update the tracked
state only when the tracked state differs from the requested target.  The
returned list is the sequence of barriers recorded on the command list. -/
def transition_barrier (p : ResourcePool) (handle : Dx12ResourceHandle)
    (state_after : Nat) : Option (List TransitionBarrier × ResourcePool) :=
  if validate_resource_state p handle then
    let slot := p.resources.getD handle.index default
    if slot.state ≠ state_after then
      some ([⟨slot.ptr, slot.state, state_after⟩],
        { p with resources := (p.resources.set handle.index
            { slot with state := state_after }) })
    else
      some ([], p)
  else
    none

/-! ## Descriptor heap allocator (src/graphics.rs 101-108, 1066-1096) -/

/-- Heap record `DescriptorHeap { cpu_base, gpu_base, size, capacity,
descriptor_size }`; the two base handles are raw addresses (0 = unset). -/
structure DescriptorHeap where
  cpu_base : Nat
  gpu_base : Nat
  size : Nat
  capacity : Nat
  descriptor_size : Nat
deriving DecidableEq, Repr

/-- Operation `DescriptorHeap::allocate_cpu_descriptors` (src/graphics.rs
1066-1077): assert a CPU-only heap and `size + num < capacity`, return the
handle at offset `size * descriptor_size` and bump `size` by `num`. -/
def DescriptorHeap.allocate_cpu_descriptors (h : DescriptorHeap) (num : Nat) :
    Option (Nat × DescriptorHeap) :=
  if h.cpu_base ≠ 0 ∧ h.gpu_base = 0 ∧ h.size + num < h.capacity then
    some (h.cpu_base + h.size * h.descriptor_size, { h with size := h.size + num })
  else
    none

/-- Operation `DescriptorHeap::allocate_gpu_descriptors` (src/graphics.rs
1079-1096): assert a shader-visible heap and `size + num < capacity`, return
CPU and GPU handles at offset `size * descriptor_size` and bump `size`. -/
def DescriptorHeap.allocate_gpu_descriptors (h : DescriptorHeap) (num : Nat) :
    Option ((Nat × Nat) × DescriptorHeap) :=
  if h.cpu_base ≠ 0 ∧ h.gpu_base ≠ 0 ∧ h.size + num < h.capacity then
    some ((h.cpu_base + h.size * h.descriptor_size,
           h.gpu_base + h.size * h.descriptor_size),
      { h with size := h.size + num })
  else
    none

/-! ## Linear GPU memory allocator (src/graphics.rs 110-116, 1227-1243) -/

/-- Heap record `GpuMemoryHeap { cpu_base, gpu_base, size, capacity }`. -/
structure GpuMemoryHeap where
  cpu_base : Nat
  gpu_base : Nat
  size : Nat
  capacity : Nat
deriving DecidableEq, Repr

/-- The in-place rounding of `GpuMemoryHeap::allocate`:
`if (size & 0xff) != 0 { size = (size + 255) & !0xff }`, with `!0xff : u32 =
0xffffff00`. -/
def roundUp256 (size : Nat) : Nat :=
  if size &&& 0xff ≠ 0 then (size + 255) &&& 0xffffff00 else size

/-- Result of a linear GPU memory allocation: `assertFailed` models the
`assert!(size > 0)` panic, `exhausted` models the `(null, 0)` sentinel early
return (carrying the untouched heap), `ok` carries the returned CPU address,
GPU virtual address and the updated heap. -/
inductive GpuAllocResult where
  | assertFailed : GpuAllocResult
  | exhausted : GpuMemoryHeap → GpuAllocResult
  | ok : Nat → Nat → GpuMemoryHeap → GpuAllocResult
deriving DecidableEq, Repr

/-- Operation `GpuMemoryHeap::allocate` (src/graphics.rs 1227-1243):
assert `size > 0`, round the size up to a 256-byte multiple, return the
`(null, 0)` sentinel when `self.size + size >= self.capacity`, otherwise
hand out the addresses at the current offset and bump `size`. -/
def GpuMemoryHeap.allocate (h : GpuMemoryHeap) (size : Nat) : GpuAllocResult :=
  if size = 0 then
    .assertFailed
  else if h.size + roundUp256 size ≥ h.capacity then
    .exhausted h
  else
    .ok (h.cpu_base + h.size) (h.gpu_base + h.size)
      { h with size := h.size + roundUp256 size }

/-- Operation `Dx12Context::allocate_upload_memory` (src/graphics.rs
904-922), projected onto the current frame's upload heap: allocate; when the
sentinel comes back, flush (submit + `finish`, whose only effect on the heap
is the per-frame reset `size = 0`); then allocate again unconditionally and
assert the second result is not the sentinel.  Note the source calls
`allocate` a second time even when the first call succeeded. -/
def allocate_upload_memory (h : GpuMemoryHeap) (size : Nat) : GpuAllocResult :=
  match h.allocate size with
  | .assertFailed => .assertFailed
  | .exhausted h1 =>
      let h2 : GpuMemoryHeap := { h1 with size := 0 }
      match h2.allocate size with
      | .ok cpu gpu h3 => .ok cpu gpu h3
      | _ => .assertFailed
  | .ok _ _ h1 =>
      match h1.allocate size with
      | .ok cpu gpu h3 => .ok cpu gpu h3
      | _ => .assertFailed

/-! ## Frame synchronization (src/graphics.rs 56-59, 957-981) -/

/-- One call of `Dx12Context::present_frame` (src/graphics.rs 957-981),
projected onto its synchronization state.  `n` is `num_frames` before the
call; `c` is the value the external fence reports from
`GetCompletedValue()`.  The call increments `num_frames`, signals the fence
with the new value, reads `c`, and when `num_frames - c >= 2` blocks until
the fence reaches `c + 1`.  The result is the new `num_frames`, whether the
blocking wait ran, and the fence value the context has thereby established
the GPU to have reached (`c + 1` after a wait, the observed `c` otherwise). -/
def present_frame_step (n c : Nat) : Nat × Bool × Nat :=
  if n + 1 - c ≥ 2 then (n + 1, true, c + 1) else (n + 1, false, c)

/-- Fold a sequence of `present_frame` calls (no intervening `finish`) over
the pair (num_frames, established GPU progress), feeding each call the fence
value observed in it. -/
def runPresents : Nat × Nat → List Nat → Nat × Nat
  | s, [] => s
  | (n, _), c :: cs => runPresents ((present_frame_step n c).1, (present_frame_step n c).2.2) cs

/-- Validity of a sequence of observed fence values against the fence
semantics: the completed value never decreases below the progress already
established (`k ≤ c`) and never exceeds the highest value signaled so far,
which is `n + 1` inside the call that just signaled it (`c ≤ n + 1`). -/
def ValidObs : Nat × Nat → List Nat → Prop
  | _, [] => True
  | (n, k), c :: cs =>
      k ≤ c ∧ c ≤ n + 1 ∧ ValidObs ((present_frame_step n c).1, (present_frame_step n c).2.2) cs

/-! ## Pipeline handles, pool and content-addressed cache
(src/graphics.rs 71-75, 84-88, 95-99, 325-367, 652-666, 757-809, 859-877,
1099-1180) -/

/-- Handle type `Dx12PipelineHandle { index: u16, generation: u16 }`. -/
structure Dx12PipelineHandle where
  index : Nat
  generation : Nat
deriving DecidableEq, Repr

/-- Slot payload `PipelineState { pso, rsignature }`; `0` is null. -/
structure PipelineState where
  pso : Nat
  rsignature : Nat
deriving DecidableEq, Repr

instance : Inhabited PipelineState := ⟨⟨0, 0⟩⟩

/-- Pool `PipelinePool { pipelines, generations, map: HashMap<u64, handle> }`.
The hash map is modelled as an association list with unique keys. -/
structure PipelinePool where
  pipelines : List PipelineState
  generations : List Nat
  map : List (Nat × Dx12PipelineHandle)
deriving DecidableEq, Repr

/-- Constructor `PipelinePool::new`. -/
def PipelinePool.new : PipelinePool :=
  { pipelines := List.replicate (MAX_NUM_PIPELINES + 1) default
    generations := List.replicate (MAX_NUM_PIPELINES + 1) 0
    map := [] }

/-- The free-slot scan of `PipelinePool::add`: first slot (from index 1)
whose `pso` pointer is null, else 0. -/
def findFreePipelineSlotAux : List PipelineState → Nat → Nat
  | [], _ => 0
  | r :: rest, i => if r.pso = 0 then i else findFreePipelineSlotAux rest (i + 1)

/-- Free-slot search over indices `1..pipelines.len()` as in the source. -/
def PipelinePool.findFreeSlot (p : PipelinePool) : Nat :=
  findFreePipelineSlotAux (p.pipelines.drop 1) 1

/-- Operation `PipelinePool::add` (src/graphics.rs 343-367): same shape as
`ResourcePool::add`, storing both native pointers and bumping the slot's
`u16` generation. -/
def PipelinePool.add (p : PipelinePool) (pso : Nat) (rsignature : Nat) :
    Option (Dx12PipelineHandle × PipelinePool) :=
  let slot_idx := p.findFreeSlot
  if slot_idx > 0 ∧ slot_idx ≤ MAX_NUM_PIPELINES then
    let newGen := (p.generations.getD slot_idx 0 + 1) % 65536
    some (⟨slot_idx, newGen⟩,
      { p with
        pipelines := p.pipelines.set slot_idx { pso := pso, rsignature := rsignature }
        generations := p.generations.set slot_idx newGen })
  else
    none

/-- Check `Dx12Context::validate_pipeline_state` (src/graphics.rs 659-666):
index in range, generation matches, both native pointers non-null. -/
def validate_pipeline_state (p : PipelinePool) (handle : Dx12PipelineHandle) : Bool :=
  decide (handle.index > 0) && decide (handle.index ≤ MAX_NUM_PIPELINES) &&
    (handle.generation == p.generations.getD handle.index 0) &&
    ((p.pipelines.getD handle.index default).pso != 0) &&
    ((p.pipelines.getD handle.index default).rsignature != 0)

/-- Lookup `pipeline_pool.map.get(&hash)` on the association list. -/
def mapGet (m : List (Nat × Dx12PipelineHandle)) (key : Nat) :
    Option Dx12PipelineHandle :=
  match m.find? (fun kv => kv.1 == key) with
  | some kv => some kv.2
  | none => none

/-- Insertion `pipeline_pool.map.insert(hash, handle)`: replace the entry of
an existing key, otherwise append (hash-map keys stay unique). -/
def mapInsert (m : List (Nat × Dx12PipelineHandle)) (key : Nat)
    (v : Dx12PipelineHandle) : List (Nat × Dx12PipelineHandle) :=
  if (m.find? (fun kv => kv.1 == key)).isSome then
    m.map (fun kv => if kv.1 == key then (key, v) else kv)
  else
    m ++ [(key, v)]

/-- The reverse-lookup loop of `Dx12Context::destroy_pipeline`
(src/graphics.rs 862-868): `key_to_remove` starts at 0 and takes the key of
the first entry whose value equals the handle, breaking out of the loop. -/
def findKeyFor (m : List (Nat × Dx12PipelineHandle)) (handle : Dx12PipelineHandle) : Nat :=
  match m.find? (fun kv => kv.2 == handle) with
  | some kv => kv.1
  | none => 0

/-- One write into the standard hasher, as issued by
`calc_graphics_pipeline_hash`; byte-slice writes keep the whole slice. -/
inductive HashWrite where
  | bytes : List Nat → HashWrite
  | i32 : Int → HashWrite
  | u32 : Nat → HashWrite
  | u8 : Nat → HashWrite
deriving DecidableEq, Repr

/-- Per-render-target blend description (`D3D12_RENDER_TARGET_BLEND_DESC`)
restricted to the fields the hash consumes. -/
structure RtBlendDesc where
  BlendEnable : Int
  LogicOpEnable : Int
  SrcBlend : Nat
  DestBlend : Nat
  BlendOp : Nat
  SrcBlendAlpha : Nat
  DestBlendAlpha : Nat
  BlendOpAlpha : Nat
  LogicOp : Nat
  RenderTargetWriteMask : Nat
deriving DecidableEq, Repr

/-- Blend state (`D3D12_BLEND_DESC`) with its eight render-target entries. -/
structure BlendDesc where
  AlphaToCoverageEnable : Int
  IndependentBlendEnable : Int
  RenderTarget : Fin 8 → RtBlendDesc
deriving DecidableEq

/-- Rasterizer state (`D3D12_RASTERIZER_DESC`); the two `f32` fields are
modelled by their bit patterns, which is what `to_bits()` feeds the hash. -/
structure RasterizerDesc where
  FillMode : Nat
  CullMode : Nat
  FrontCounterClockwise : Int
  DepthBias : Int
  DepthBiasClampBits : Nat
  SlopeScaledDepthBiasBits : Nat
  DepthClipEnable : Int
  MultisampleEnable : Int
  AntialiasedLineEnable : Int
  ForcedSampleCount : Nat
  ConservativeRaster : Nat
deriving DecidableEq, Repr

/-- Stencil-op description (`D3D12_DEPTH_STENCILOP_DESC`). -/
structure StencilOpDesc where
  StencilFailOp : Nat
  StencilDepthFailOp : Nat
  StencilPassOp : Nat
  StencilFunc : Nat
deriving DecidableEq, Repr

/-- Depth/stencil state (`D3D12_DEPTH_STENCIL_DESC`). -/
structure DepthStencilDesc where
  DepthEnable : Int
  DepthWriteMask : Nat
  DepthFunc : Nat
  StencilEnable : Int
  StencilReadMask : Nat
  StencilWriteMask : Nat
  FrontFace : StencilOpDesc
  BackFace : StencilOpDesc
deriving DecidableEq, Repr

/-- Input-layout element (`D3D12_INPUT_ELEMENT_DESC`); the semantic name is
the byte string the hash reads through `CStr::to_bytes`. -/
structure InputElementDesc where
  SemanticName : List Nat
  SemanticIndex : Nat
  Format : Nat
  InputSlot : Nat
  AlignedByteOffset : Nat
  InputSlotClass : Nat
  InstanceDataStepRate : Nat
deriving DecidableEq, Repr

/-- The fields of `D3D12_GRAPHICS_PIPELINE_STATE_DESC` consumed by
`calc_graphics_pipeline_hash`; the shader bytecodes are the byte buffers the
`VS`/`PS` slices point at, and the input layout is the element array with
`NumElements = length`. -/
structure GraphicsPsoDesc where
  VS : List Nat
  PS : List Nat
  BlendState : BlendDesc
  SampleMask : Nat
  RasterizerState : RasterizerDesc
  DepthStencilState : DepthStencilDesc
  InputLayout : List InputElementDesc
  IBStripCutValue : Nat
  PrimitiveTopologyType : Nat
  NumRenderTargets : Nat
  RTVFormats : Fin 8 → Nat
  DSVFormat : Nat
  SampleDescCount : Nat
  SampleDescQuality : Nat
deriving DecidableEq

/-- Hash writes for one render-target blend entry, in source order. -/
def rtBlendWrites (rt : RtBlendDesc) : List HashWrite :=
  [.i32 rt.BlendEnable, .i32 rt.LogicOpEnable, .u32 rt.SrcBlend, .u32 rt.DestBlend,
   .u32 rt.BlendOp, .u32 rt.SrcBlendAlpha, .u32 rt.DestBlendAlpha,
   .u32 rt.BlendOpAlpha, .u32 rt.LogicOp, .u8 rt.RenderTargetWriteMask]

/-- Hash writes for one input-layout element, in source order. -/
def inputElementWrites (e : InputElementDesc) : List HashWrite :=
  [.bytes e.SemanticName, .u32 e.SemanticIndex, .u32 e.Format, .u32 e.InputSlot,
   .u32 e.AlignedByteOffset, .u32 e.InputSlotClass, .u32 e.InstanceDataStepRate]

/-- The exact sequence of hasher writes issued by
`calc_graphics_pipeline_hash` (src/graphics.rs 1099-1180), in source order:
both shader binaries byte-for-byte, blend state, sample mask, rasterizer
state, depth/stencil state, the input layout element count and elements,
strip-cut value, topology type, render-target count and formats, DSV format
and sample description. -/
def graphicsPipelineWrites (desc : GraphicsPsoDesc) : List HashWrite :=
  [.bytes desc.VS, .bytes desc.PS,
   .i32 desc.BlendState.AlphaToCoverageEnable,
   .i32 desc.BlendState.IndependentBlendEnable] ++
  (List.finRange 8).flatMap (fun i => rtBlendWrites (desc.BlendState.RenderTarget i)) ++
  [.u32 desc.SampleMask,
   .u32 desc.RasterizerState.FillMode, .u32 desc.RasterizerState.CullMode,
   .i32 desc.RasterizerState.FrontCounterClockwise, .i32 desc.RasterizerState.DepthBias,
   .u32 desc.RasterizerState.DepthBiasClampBits,
   .u32 desc.RasterizerState.SlopeScaledDepthBiasBits,
   .i32 desc.RasterizerState.DepthClipEnable, .i32 desc.RasterizerState.MultisampleEnable,
   .i32 desc.RasterizerState.AntialiasedLineEnable,
   .u32 desc.RasterizerState.ForcedSampleCount,
   .u32 desc.RasterizerState.ConservativeRaster,
   .i32 desc.DepthStencilState.DepthEnable, .u32 desc.DepthStencilState.DepthWriteMask,
   .u32 desc.DepthStencilState.DepthFunc, .i32 desc.DepthStencilState.StencilEnable,
   .u8 desc.DepthStencilState.StencilReadMask, .u8 desc.DepthStencilState.StencilWriteMask,
   .u32 desc.DepthStencilState.FrontFace.StencilFailOp,
   .u32 desc.DepthStencilState.FrontFace.StencilDepthFailOp,
   .u32 desc.DepthStencilState.FrontFace.StencilPassOp,
   .u32 desc.DepthStencilState.FrontFace.StencilFunc,
   .u32 desc.DepthStencilState.BackFace.StencilFailOp,
   .u32 desc.DepthStencilState.BackFace.StencilDepthFailOp,
   .u32 desc.DepthStencilState.BackFace.StencilPassOp,
   .u32 desc.DepthStencilState.BackFace.StencilFunc,
   .u32 desc.InputLayout.length] ++
  desc.InputLayout.flatMap inputElementWrites ++
  [.u32 desc.IBStripCutValue, .u32 desc.PrimitiveTopologyType,
   .u32 desc.NumRenderTargets] ++
  (List.finRange 8).map (fun i => HashWrite.u32 (desc.RTVFormats i)) ++
  [.u32 desc.DSVFormat, .u32 desc.SampleDescCount, .u32 desc.SampleDescQuality]

/-- Function `calc_graphics_pipeline_hash` (src/graphics.rs 1099-1180):
feed the write sequence above into the standard library's `DefaultHasher`
and take `finish()`.  The hasher itself is external standard-library code
(SipHash over the written stream); it is modelled as an arbitrary function
`siphash` from the write stream to the 64-bit digest, which is all the
cache logic depends on: the digest is a deterministic function of the
written content. -/
def calc_graphics_pipeline_hash (siphash : List HashWrite → Nat)
    (desc : GraphicsPsoDesc) : Nat :=
  siphash (graphicsPipelineWrites desc)

/-- Operation `Dx12Context::create_graphics_pipeline` (src/graphics.rs
757-809): install the freshly read shader binaries into the description,
hash it, and return the cached handle when the hash is present in the map
(creating nothing).  Otherwise create the native root signature and pipeline
object (their device-returned non-null addresses are the `rsignatureAddr` /
`psoAddr` inputs; `WeakPtr::from_raw` rejects null), pool them, insert the
hash and return the new handle.  The final `Nat` counts the native pipeline
objects created by the call; `none` models a panic (pool exhaustion or a
null pointer from the device). -/
def create_graphics_pipeline (siphash : List HashWrite → Nat)
    (psoAddr rsignatureAddr : Nat) (p : PipelinePool) (desc : GraphicsPsoDesc)
    (vs_bytecode ps_bytecode : List Nat) :
    Option (Dx12PipelineHandle × PipelinePool × Nat) :=
  let desc1 := { desc with VS := vs_bytecode, PS := ps_bytecode }
  let hash := calc_graphics_pipeline_hash siphash desc1
  match mapGet p.map hash with
  | some h => some (h, p, 0)
  | none =>
      if psoAddr = 0 ∨ rsignatureAddr = 0 then
        none
      else
        match p.add psoAddr rsignatureAddr with
        | none => none
        | some (h, p1) => some (h, { p1 with map := mapInsert p1.map hash h }, 1)

/-- Operation `Dx12Context::destroy_pipeline` (src/graphics.rs 859-877):
validate the handle; scan the cache map for the first entry whose value is
the handle (`key_to_remove` stays 0 when none matches) and assert the found
key is non-zero; remove that key; release both native objects (nulling the
slot's pointers; the two refcount arguments are the counts the external COM
`Release` calls report) and assert both released counts are zero.  `none`
models any of the assertion failures. -/
def destroy_pipeline (p : PipelinePool) (handle : Dx12PipelineHandle)
    (pso_refcount rsignature_refcount : Nat) : Option PipelinePool :=
  if validate_pipeline_state p handle then
    let key_to_remove := findKeyFor p.map handle
    if key_to_remove ≠ 0 then
      let p1 := { p with map := p.map.filter (fun kv => ¬ kv.1 = key_to_remove) }
      let p2 := { p1 with pipelines := p1.pipelines.set handle.index ⟨0, 0⟩ }
      if pso_refcount = 0 ∧ rsignature_refcount = 0 then
        some p2
      else
        none
    else
      none
  else
    none

/-! ## Helper lemmas -/

/-- Lemma: reading a just-written list position yields the written value. -/
theorem getD_set_self {α : Type} (l : List α) (i : Nat) (a d : α)
    (h : i < l.length) : (l.set i a).getD i d = a := by
  simp [List.getD_eq_getElem?_getD, List.getElem?_set_self h]

/-- Lemma: writing one list position leaves every other position unchanged. -/
theorem getD_set_ne {α : Type} (l : List α) (i j : Nat) (a d : α)
    (h : i ≠ j) : (l.set i a).getD j d = l.getD j d := by
  simp [List.getD_eq_getElem?_getD, List.getElem?_set_ne h]

/-- Lemma: a 32-bit value masked with `0xffffff00` is truncated down to the
nearest multiple of 256. -/
theorem land_ffffff00 (x : Nat) (hx : x < 2 ^ 32) :
    x &&& 0xffffff00 = x / 256 * 256 := by
  have hmask : (0xffffff00 : Nat) = (2 ^ 24 - 1) <<< 8 := by
    norm_num [Nat.shiftLeft_eq]
  have hrw : x / 256 * 256 = (x >>> 8) <<< 8 := by
    simp [Nat.shiftLeft_eq, Nat.shiftRight_eq_div_pow]
  rw [hmask, hrw]
  apply Nat.eq_of_testBit_eq
  intro j
  rw [Nat.testBit_and, Nat.testBit_shiftLeft, Nat.testBit_shiftLeft,
    Nat.testBit_shiftRight, Nat.testBit_two_pow_sub_one]
  rcases Nat.lt_or_ge j 8 with hj | hj
  · simp [Nat.not_le.mpr hj]
  · rcases Nat.lt_or_ge j 32 with hj32 | hj32
    · have hadd : 8 + (j - 8) = j := by omega
      have hlt : j - 8 < 24 := by omega
      simp [hj, hadd, hlt]
    · have hxj : x.testBit j = false :=
        Nat.testBit_lt_two_pow (Nat.lt_of_lt_of_le hx (Nat.pow_le_pow_right (by norm_num) hj32))
      have hadd : 8 + (j - 8) = j := by omega
      simp [hadd, hxj]

/-- Lemma: for sizes within the `u32` range, the allocator's rounding on the
source computes `ceil(size / 256) * 256`. -/
theorem roundUp256_eq (s : Nat) (hs : s + 255 < 2 ^ 32) :
    roundUp256 s = (s + 255) / 256 * 256 := by
  have h255 : s &&& 0xff = s % 256 := by
    have h := Nat.and_pow_two_sub_one_eq_mod s 8
    norm_num at h
    exact h
  unfold roundUp256
  rw [h255]
  by_cases hmod : s % 256 = 0
  · simp only [hmod, ne_eq, not_true_eq_false, if_false]
    omega
  · simp only [ne_eq, hmod, not_false_eq_true, if_true]
    rw [land_ffffff00 (s + 255) hs]

/-- Lemma: the rounded size is at least the requested size. -/
theorem le_roundUp256 (s : Nat) (hs : s + 255 < 2 ^ 32) : s ≤ roundUp256 s := by
  rw [roundUp256_eq s hs]
  omega

/-- Lemma: the rounded size of a positive request is a positive multiple
of 256. -/
theorem roundUp256_dvd (s : Nat) (hs : s + 255 < 2 ^ 32) :
    256 ∣ roundUp256 s := by
  rw [roundUp256_eq s hs]
  exact Dvd.intro_left _ rfl

/-! ## Claim C3 (corrected) -/

/-- Claim C3 counterexample: on a CPU-only descriptor heap with `size = 0`
and `capacity = 4`, a request of 4 descriptors satisfies the claim's
condition `size + count <= capacity`, yet the code's assertion
`(size + num) < capacity` fails (the allocation is rejected), so the claim's
`<=` success bound is refuted. -/
theorem descriptor_alloc_le_capacity_fails :
    DescriptorHeap.allocate_cpu_descriptors ⟨1, 0, 0, 4, 1⟩ 4 = none ∧
      (0 : Nat) + 4 ≤ 4 := by
  constructor
  · rfl
  · decide

/-- Claim C3, amended: a descriptor-heap allocation of `count` descriptors
succeeds (returning the handle at offset `size * descriptor_size` and
bumping `size` by `count`) exactly when `size + count < capacity` (strictly;
a request equal to the remaining capacity already fails), and is a hard
assertion failure otherwise; hence the running size always stays strictly
below `capacity` and the heap never silently wraps.  Both the CPU-only and
the shader-visible allocator enforce the same bound. -/
theorem descriptor_alloc_strict_bound (h : DescriptorHeap) (num : Nat) :
    (h.cpu_base ≠ 0 → h.gpu_base = 0 →
      (h.size + num < h.capacity →
        h.allocate_cpu_descriptors num =
          some (h.cpu_base + h.size * h.descriptor_size, { h with size := h.size + num })) ∧
      (h.capacity ≤ h.size + num → h.allocate_cpu_descriptors num = none)) ∧
    (h.cpu_base ≠ 0 → h.gpu_base ≠ 0 →
      (h.size + num < h.capacity →
        h.allocate_gpu_descriptors num =
          some ((h.cpu_base + h.size * h.descriptor_size,
                 h.gpu_base + h.size * h.descriptor_size),
            { h with size := h.size + num })) ∧
      (h.capacity ≤ h.size + num → h.allocate_gpu_descriptors num = none)) ∧
    (∀ out h2, h.allocate_cpu_descriptors num = some (out, h2) →
      h2.size < h2.capacity) ∧
    (∀ out h2, h.allocate_gpu_descriptors num = some (out, h2) →
      h2.size < h2.capacity) := by
  refine ⟨fun hc hg => ⟨fun hlt => ?_, fun hge => ?_⟩,
          fun hc hg => ⟨fun hlt => ?_, fun hge => ?_⟩, fun out h2 hsome => ?_,
          fun out h2 hsome => ?_⟩
  · simp [DescriptorHeap.allocate_cpu_descriptors, hc, hg, hlt]
  · simp [DescriptorHeap.allocate_cpu_descriptors, Nat.not_lt.mpr hge]
  · simp [DescriptorHeap.allocate_gpu_descriptors, hc, hg, hlt]
  · simp [DescriptorHeap.allocate_gpu_descriptors, Nat.not_lt.mpr hge]
  · unfold DescriptorHeap.allocate_cpu_descriptors at hsome
    split at hsome
    · rename_i hcond
      injection hsome with hpair
      injection hpair with h1 h2eq
      subst h2eq
      exact hcond.2.2
    · exact absurd hsome (by simp)
  · unfold DescriptorHeap.allocate_gpu_descriptors at hsome
    split at hsome
    · rename_i hcond
      injection hsome with hpair
      injection hpair with h1 h2eq
      subst h2eq
      exact hcond.2.2
    · exact absurd hsome (by simp)

/-- Claim C3 witness: a concrete CPU-only heap with room accepts a request
strictly below the remaining capacity and rejects one reaching it. -/
theorem descriptor_alloc_strict_bound_witness :
    DescriptorHeap.allocate_cpu_descriptors ⟨7, 0, 2, 8, 4⟩ 3 =
      some (7 + 2 * 4, { cpu_base := 7, gpu_base := 0, size := 2 + 3,
                         capacity := 8, descriptor_size := 4 }) ∧
    DescriptorHeap.allocate_cpu_descriptors ⟨7, 0, 2, 8, 4⟩ 6 = none :=
  ⟨((descriptor_alloc_strict_bound ⟨7, 0, 2, 8, 4⟩ 3).1 (by decide) rfl).1 (by decide),
   ((descriptor_alloc_strict_bound ⟨7, 0, 2, 8, 4⟩ 6).1 (by decide) rfl).2 (by decide)⟩

/-! ## Claims C4 (corrected), C8 and C10 on the linear GPU memory allocator -/

/-- Lemma: inversion of a successful linear allocation: the capacity check
passed and the results are the current offsets, with `size` bumped by the
rounded request. -/
theorem gpu_allocate_ok_inv (h : GpuMemoryHeap) (s cpu gpu : Nat)
    (h2 : GpuMemoryHeap) (hok : h.allocate s = .ok cpu gpu h2) :
    s ≠ 0 ∧ h.size + roundUp256 s < h.capacity ∧
      cpu = h.cpu_base + h.size ∧ gpu = h.gpu_base + h.size ∧
      h2 = { h with size := h.size + roundUp256 s } := by
  unfold GpuMemoryHeap.allocate at hok
  split at hok
  · exact absurd hok (by simp)
  · rename_i hs
    split at hok
    · exact absurd hok (by simp)
    · rename_i hcap
      injection hok with h1 hg hh
      exact ⟨hs, by omega, h1.symm, hg.symm, hh.symm⟩

/-- Lemma: inversion of the sentinel case: the request was positive and the
capacity bound failed with the `>=` test. -/
theorem gpu_allocate_exhausted_inv (h h1 : GpuMemoryHeap) (s : Nat)
    (hex : h.allocate s = .exhausted h1) :
    s ≠ 0 ∧ h.capacity ≤ h.size + roundUp256 s ∧ h1 = h := by
  unfold GpuMemoryHeap.allocate at hex
  split at hex
  · exact absurd hex (by simp)
  · rename_i hs
    split at hex
    · rename_i hcap
      injection hex with hh
      exact ⟨hs, by omega, hh.symm⟩
    · exact absurd hex (by simp)

/-- Claim C4 counterexample: a 256-byte request on an empty heap of capacity
exactly 256 does not exceed the capacity (`size + rounded = capacity`), so
the claim says it must succeed; the code's `>=` test returns the sentinel
instead. -/
theorem gpu_allocate_at_capacity_is_sentinel :
    GpuMemoryHeap.allocate ⟨1, 4096, 0, 256⟩ 256 =
      .exhausted ⟨1, 4096, 0, 256⟩ ∧
    ¬ ((0 : Nat) + (256 + 255) / 256 * 256 > 256) := by
  constructor
  · rfl
  · decide

/-- Claim C4, amended: for a positive request `s` (within the `u32` range)
with rounded size `r = ceil(s / 256) * 256`, `allocate` returns the
`(null, 0)` sentinel exactly when `size + r >= capacity` (so also when the
request would exactly fill the heap), leaving the heap unchanged and raising
no assertion; otherwise it returns non-sentinel addresses (the heap bases
plus the current offset) and bumps `size` by `r`. -/
theorem gpu_allocate_sentinel_iff (h : GpuMemoryHeap) (s : Nat)
    (hs : 0 < s) (hsmall : s + 255 < 2 ^ 32) (hcpu : 0 < h.cpu_base)
    (hgpu : 0 < h.gpu_base) :
    (h.allocate s = .exhausted h ↔ h.capacity ≤ h.size + (s + 255) / 256 * 256) ∧
    h.allocate s ≠ .assertFailed ∧
    (h.size + (s + 255) / 256 * 256 < h.capacity →
      h.allocate s = .ok (h.cpu_base + h.size) (h.gpu_base + h.size)
          { h with size := h.size + (s + 255) / 256 * 256 } ∧
        0 < h.cpu_base + h.size ∧ 0 < h.gpu_base + h.size) := by
  have hr : roundUp256 s = (s + 255) / 256 * 256 := roundUp256_eq s hsmall
  have hs0 : s ≠ 0 := by omega
  refine ⟨⟨fun hex => ?_, fun hge => ?_⟩, fun hfail => ?_, fun hlt => ⟨?_, by omega, by omega⟩⟩
  · by_contra hcap
    have hlt : h.size + roundUp256 s < h.capacity := by omega
    have : h.allocate s = .ok (h.cpu_base + h.size) (h.gpu_base + h.size)
        { h with size := h.size + roundUp256 s } := by
      unfold GpuMemoryHeap.allocate
      simp [hs0, Nat.not_le.mpr hlt]
    rw [this] at hex
    exact absurd hex (by simp)
  · unfold GpuMemoryHeap.allocate
    have : h.size + roundUp256 s ≥ h.capacity := by omega
    simp [hs0, this]
  · unfold GpuMemoryHeap.allocate at hfail
    split at hfail
    · omega
    · split at hfail
      · exact absurd hfail (by simp)
      · exact absurd hfail (by simp)
  · unfold GpuMemoryHeap.allocate
    rw [hr]
    have hltr : ¬ (h.size + (s + 255) / 256 * 256 ≥ h.capacity) := by omega
    simp [hs0, hltr]

/-- Claim C4 witness: on an empty 1024-byte heap a 300-byte request is not
the sentinel (512 < 1024) and a 1024-byte request is exactly the sentinel. -/
theorem gpu_allocate_sentinel_iff_witness :
    GpuMemoryHeap.allocate ⟨1, 4096, 0, 1024⟩ 300 =
      .ok (1 + 0) (4096 + 0) ⟨1, 4096, 0 + (300 + 255) / 256 * 256, 1024⟩ ∧
    GpuMemoryHeap.allocate ⟨1, 4096, 0, 1024⟩ 1024 =
      .exhausted ⟨1, 4096, 0, 1024⟩ :=
  ⟨((gpu_allocate_sentinel_iff ⟨1, 4096, 0, 1024⟩ 300 (by decide) (by decide)
      (by decide) (by decide)).2.2 (by decide)).1,
   (gpu_allocate_sentinel_iff ⟨1, 4096, 0, 1024⟩ 1024 (by decide) (by decide)
      (by decide) (by decide)).1.mpr (by decide)⟩

/-- Claim C8: a successful linear allocation from a heap whose consumed size
is a multiple of 256 (as every heap reachable by resets and successful
allocations is) returns addresses at offset `size` from the bases, so the
GPU address is 256-byte aligned relative to the base; it consumes exactly
`ceil(s / 256) * 256` bytes; and a second successful allocation starts at or
after the end of the first request's byte range, so consecutive allocations
never overlap.  Concretely, a 300-byte request against an empty 1024-byte
heap succeeds and consumes 512 bytes. -/
theorem gpu_allocate_aligned_and_disjoint (h : GpuMemoryHeap)
    (s1 s2 cpu1 gpu1 cpu2 gpu2 : Nat) (h1 h2 : GpuMemoryHeap)
    (hal : 256 ∣ h.size) (hsm1 : s1 + 255 < 2 ^ 32)
    (hok1 : h.allocate s1 = .ok cpu1 gpu1 h1)
    (hok2 : h1.allocate s2 = .ok cpu2 gpu2 h2) :
    (gpu1 - h.gpu_base) % 256 = 0 ∧
    h1.size = h.size + (s1 + 255) / 256 * 256 ∧
    256 ∣ h1.size ∧
    gpu1 + s1 ≤ gpu2 ∧ cpu1 + s1 ≤ cpu2 ∧
    GpuMemoryHeap.allocate ⟨1, 4096, 0, 1024⟩ 300 =
      .ok 1 4096 ⟨1, 4096, 512, 1024⟩ := by
  obtain ⟨hs1, hcap1, hc1, hg1, hh1⟩ := gpu_allocate_ok_inv h s1 cpu1 gpu1 h1 hok1
  obtain ⟨hs2, hcap2, hc2, hg2, hh2⟩ := gpu_allocate_ok_inv h1 s2 cpu2 gpu2 h2 hok2
  have hr1 : roundUp256 s1 = (s1 + 255) / 256 * 256 := roundUp256_eq s1 hsm1
  have hle1 : s1 ≤ roundUp256 s1 := le_roundUp256 s1 hsm1
  have hsz1 : h1.size = h.size + roundUp256 s1 := by rw [hh1]
  refine ⟨?_, by omega, ?_, ?_, ?_, by rfl⟩
  · have : gpu1 - h.gpu_base = h.size := by omega
    rw [this]
    omega
  · rw [hsz1, hr1]
    rcases hal with ⟨k, hk⟩
    exact ⟨k + (s1 + 255) / 256, by omega⟩
  · have : gpu2 = h1.gpu_base + h1.size := hg2
    have hb : h1.gpu_base = h.gpu_base := by rw [hh1]
    omega
  · have : cpu2 = h1.cpu_base + h1.size := hc2
    have hb : h1.cpu_base = h.cpu_base := by rw [hh1]
    omega

/-- Claim C8 witness: on an empty 1024-byte heap, a 300-byte allocation
(consuming 512 bytes) followed by a 256-byte allocation yields disjoint
ranges and 256-aligned offsets. -/
theorem gpu_allocate_aligned_and_disjoint_witness :
    (4096 + 512 : Nat) - 4096 ≡ 0 [MOD 256] ∧ (4096 : Nat) + 300 ≤ 4096 + 512 :=
  ⟨(gpu_allocate_aligned_and_disjoint ⟨1, 4096, 0, 1024⟩ 300 256 1 4096
      (1 + 512) (4096 + 512) ⟨1, 4096, 512, 1024⟩ ⟨1, 4096, 768, 1024⟩
      (by decide) (by decide) (by decide) (by decide)).1,
   (gpu_allocate_aligned_and_disjoint ⟨1, 4096, 0, 1024⟩ 300 256 1 4096
      (1 + 512) (4096 + 512) ⟨1, 4096, 512, 1024⟩ ⟨1, 4096, 768, 1024⟩
      (by decide) (by decide) (by decide) (by decide)).2.2.2.1⟩

/-! ## Claim C10: zero-size requests are fatal, not recoverable -/

/-- Claim C10: a zero-size request hits `assert!(size > 0)` before any
rounding or capacity check, both in `GpuMemoryHeap::allocate` (first
conjunct: on every heap, whatever its size and capacity) and therefore in
`Dx12Context::allocate_upload_memory` (second conjunct); it is never the
recoverable `(null, 0)` sentinel (third conjunct), and a positive requested
size is exactly the precondition ruling the assertion out (fourth
conjunct). -/
theorem allocate_zero_size_asserts (h : GpuMemoryHeap) :
    h.allocate 0 = .assertFailed ∧
    allocate_upload_memory h 0 = .assertFailed ∧
    (∀ h1 : GpuMemoryHeap, h.allocate 0 ≠ .exhausted h1) ∧
    (∀ s : Nat, 0 < s → h.allocate s ≠ .assertFailed) := by
  have hz : h.allocate 0 = .assertFailed := by
    unfold GpuMemoryHeap.allocate
    simp
  refine ⟨hz, ?_, ?_, ?_⟩
  · unfold allocate_upload_memory
    rw [hz]
  · intro h1
    rw [hz]
    simp
  · intro s hs
    intro hfail
    unfold GpuMemoryHeap.allocate at hfail
    split at hfail
    · omega
    · split at hfail
      · exact absurd hfail (by simp)
      · exact absurd hfail (by simp)

/-- Claim C10 witness: the fourth conjunct at a concrete heap and size. -/
theorem allocate_zero_size_asserts_witness :
    GpuMemoryHeap.allocate ⟨1, 4096, 0, 1024⟩ 300 ≠ .assertFailed ∧
    GpuMemoryHeap.allocate ⟨1, 4096, 0, 1024⟩ 0 = .assertFailed :=
  ⟨(allocate_zero_size_asserts ⟨1, 4096, 0, 1024⟩).2.2.2 300 (by decide),
   (allocate_zero_size_asserts ⟨1, 4096, 0, 1024⟩).1⟩

/-! ## Claim C6: redundant transitions are suppressed -/

/-- Lemma: unfolding the validation check into its four assertions. -/
theorem validate_resource_state_iff (p : ResourcePool) (handle : Dx12ResourceHandle) :
    validate_resource_state p handle = true ↔
      0 < handle.index ∧ handle.index ≤ MAX_NUM_RESOURCES ∧
      handle.generation = p.generations.getD handle.index 0 ∧
      (p.resources.getD handle.index default).ptr ≠ 0 := by
  unfold validate_resource_state
  simp [Bool.and_eq_true, and_assoc]

/-- Lemma: a validating handle indexes a real element of the slot vector
(an out-of-range read would yield the default slot, whose pointer is
null). -/
theorem validate_resource_state_index_lt (p : ResourcePool)
    (handle : Dx12ResourceHandle) (hv : validate_resource_state p handle = true) :
    handle.index < p.resources.length := by
  by_contra hge
  have hdef : p.resources.getD handle.index default = default := by
    simp [List.getD_eq_getElem?_getD, List.getElem?_eq_none
      (by omega : p.resources.length ≤ handle.index)]
  have hptr := ((validate_resource_state_iff p handle).mp hv).2.2.2
  rw [hdef] at hptr
  exact hptr rfl

/-- Claim C6: for a live (validating) resource handle, requesting a
transition to the currently tracked state emits zero barriers and returns
the pool unchanged; requesting a different state emits exactly one barrier
from the tracked state to the target and updates only that slot's tracked
state (every other slot index, and the generation array, are untouched:
the new pool is the old one with exactly that slot rewritten). -/
theorem transition_barrier_redundant_suppressed (p : ResourcePool)
    (handle : Dx12ResourceHandle) (state_after : Nat)
    (hv : validate_resource_state p handle = true) :
    ((p.resources.getD handle.index default).state = state_after →
      transition_barrier p handle state_after = some ([], p)) ∧
    ((p.resources.getD handle.index default).state ≠ state_after →
      transition_barrier p handle state_after =
        some ([⟨(p.resources.getD handle.index default).ptr,
                (p.resources.getD handle.index default).state, state_after⟩],
          { p with resources := (p.resources.set handle.index
              { p.resources.getD handle.index default with state := state_after }) }) ∧
      (∀ j, j ≠ handle.index →
        (p.resources.set handle.index
          { p.resources.getD handle.index default with
            state := state_after }).getD j default = p.resources.getD j default) ∧
      (p.resources.set handle.index
        { p.resources.getD handle.index default with
          state := state_after }).getD handle.index default =
        { p.resources.getD handle.index default with state := state_after }) := by
  constructor
  · intro heq
    unfold transition_barrier
    simp only [List.getD_eq_getElem?_getD] at heq
    simp [hv, heq]
  · intro hne
    refine ⟨?_, ?_, ?_⟩
    · unfold transition_barrier
      simp only [List.getD_eq_getElem?_getD] at hne
      simp [hv, hne]
    · intro j hj
      exact getD_set_ne _ _ _ _ _ (fun hcontra => hj hcontra.symm)
    · exact getD_set_self _ _ _ _ (validate_resource_state_index_lt p handle hv)

/-- Claim C6 witness: a concrete pool with one live slot in state 3: a
redundant request to state 3 emits no barrier; a request to state 5 emits
one barrier from 3 to 5. -/
theorem transition_barrier_redundant_suppressed_witness :
    transition_barrier
      ⟨(List.replicate 257 default).set 1 ⟨9, 3, 0⟩,
       (List.replicate 257 0).set 1 1⟩ ⟨1, 1⟩ 3 =
      some ([], ⟨(List.replicate 257 default).set 1 ⟨9, 3, 0⟩,
                 (List.replicate 257 0).set 1 1⟩) ∧
    (transition_barrier
      ⟨(List.replicate 257 default).set 1 ⟨9, 3, 0⟩,
       (List.replicate 257 0).set 1 1⟩ ⟨1, 1⟩ 5).map
        (fun r => r.1) = some [⟨9, 3, 5⟩] := by
  constructor
  · exact (transition_barrier_redundant_suppressed _ ⟨1, 1⟩ 3 (by decide)).1 (by decide)
  · rw [((transition_barrier_redundant_suppressed _ ⟨1, 1⟩ 5 (by decide)).2 (by decide)).1]
    decide

/-! ## Claim C1: frame pacing -/

/-- Lemma: validity of a whole observation sequence restricts to any
prefix. -/
theorem validObs_append_left (pre post : List Nat) (s : Nat × Nat)
    (hval : ValidObs s (pre ++ post)) : ValidObs s pre := by
  induction pre generalizing s with
  | nil => trivial
  | cons c cs ih =>
      obtain ⟨hk, hc, hrest⟩ := hval
      exact ⟨hk, hc, ih _ hrest⟩

/-- Lemma: one `present_frame` call preserves the pacing invariant: if the
CPU was at most one frame ahead of the established GPU progress and the
observed fence value is consistent (monotone, and at most the value just
signaled), the CPU is again at most one frame ahead afterwards. -/
theorem present_step_preserves (n k c : Nat) (hk : k ≤ c) (_hc : c ≤ n + 1)
    (hinv : n ≤ k + 1) :
    (present_frame_step n c).1 ≤ (present_frame_step n c).2.2 + 1 := by
  unfold present_frame_step
  split
  · simpa using by omega
  · rename_i hlt
    simp only []
    omega

/-- Lemma: the pacing invariant holds after any valid run of
`present_frame` calls. -/
theorem runPresents_invariant (pre : List Nat) (n k : Nat)
    (hval : ValidObs (n, k) pre) (hinv : n ≤ k + 1) :
    (runPresents (n, k) pre).1 ≤ (runPresents (n, k) pre).2 + 1 := by
  induction pre generalizing n k with
  | nil => simpa [runPresents] using hinv
  | cons c cs ih =>
      obtain ⟨hk, hc, hrest⟩ := hval
      have hstep := present_step_preserves n k c hk hc hinv
      simp only [runPresents]
      exact ih _ _ hrest hstep

/-- Claim C1: (i) a `present_frame` call increments `num_frames` by one,
its blocking fence wait triggers exactly when the incremented `num_frames`
minus the observed completed value is at least 2, and when it triggers it
waits until the fence reaches the completed value plus 1; (ii) along every
sequence of `present_frame` calls without intervening `finish`, starting
from a state where the CPU is at most one frame ahead of the established
GPU fence progress (as at context creation, `num_frames = 0`), after every
prefix of the sequence the submitted-frame counter is at most one ahead of
the fence value the context has last signaled-and-waited-for or observed
completed. -/
theorem present_frame_pacing :
    (∀ n c : Nat,
      (present_frame_step n c).1 = n + 1 ∧
      ((present_frame_step n c).2.1 = true ↔ 2 ≤ (n + 1) - c) ∧
      ((present_frame_step n c).2.1 = true → (present_frame_step n c).2.2 = c + 1)) ∧
    (∀ cs pre post : List Nat, ∀ n k : Nat,
      ValidObs (n, k) cs → n ≤ k + 1 → cs = pre ++ post →
      (runPresents (n, k) pre).1 ≤ (runPresents (n, k) pre).2 + 1) := by
  constructor
  · intro n c
    unfold present_frame_step
    split
    · rename_i hge
      exact ⟨by simp, by simpa using hge, fun _ => by simp⟩
    · rename_i hlt
      exact ⟨by simp, by simpa using hlt, by simp⟩
  · intro cs pre post n k hval hinv heq
    subst heq
    exact runPresents_invariant pre n k (validObs_append_left pre post _ hval) hinv

/-- Claim C1 witness: two `present_frame` calls from the initial state with
the GPU never progressing: the second call blocks and the pacing bound
holds. -/
theorem present_frame_pacing_witness :
    (runPresents (0, 0) [0, 0]).1 ≤ (runPresents (0, 0) [0, 0]).2 + 1 :=
  present_frame_pacing.2 [0, 0] [0, 0] [] 0 0
    (by simp [ValidObs, present_frame_step])
    (by omega) (by simp)

/-! ## Claims C2 (corrected) and C9: generation-checked slot reuse -/

/-- One destroy-then-add reuse cycle on a slot: destroy the given handle
(with the external `Release` reporting refcount 0), then `add` a fresh
resource (modelled address 7, a stand-in for the next committed resource's
non-null device pointer) with initial state and format 0; the result pairs
the new pool with the handle the `add` returned. -/
def reuseCycle (s : ResourcePool × Dx12ResourceHandle) :
    Option (ResourcePool × Dx12ResourceHandle) :=
  match destroy_resource s.1 s.2 0 with
  | none => none
  | some p1 =>
      match p1.add 7 0 0 with
      | none => none
      | some (h, p2) => some (p2, h)

/-- Iterated destroy/add reuse cycles. -/
def reuseCycles : Nat → ResourcePool × Dx12ResourceHandle →
    Option (ResourcePool × Dx12ResourceHandle)
  | 0, s => some s
  | k + 1, s =>
      match reuseCycle s with
      | none => none
      | some s1 => reuseCycles k s1

/-- Invariant tying a pool to the live current-generation handle of slot
`idx`: the vectors have the pool's fixed length, the handle carries the
slot's current generation `g` (a `u16` value), the slot is live, and every
slot strictly below `idx` is live (so the free-slot scan reuses `idx` after
a destroy of `idx`). -/
def SlotInv (idx g : Nat) (s : ResourcePool × Dx12ResourceHandle) : Prop :=
  s.2 = ⟨idx, g⟩ ∧
  s.1.resources.length = MAX_NUM_RESOURCES + 1 ∧
  s.1.generations.length = MAX_NUM_RESOURCES + 1 ∧
  0 < idx ∧ idx ≤ MAX_NUM_RESOURCES ∧ g < 65536 ∧
  s.1.generations.getD idx 0 = g ∧
  (s.1.resources.getD idx default).ptr ≠ 0 ∧
  (∀ j, 0 < j → j < idx → (s.1.resources.getD j default).ptr ≠ 0)

/-- Lemma: the free-slot scan returns `start + t` when position `t` holds
the first null pointer of the scanned list. -/
theorem findFreeSlotAux_spec (l : List ResourceState) (t i : Nat)
    (ht : t < l.length) (hz : (l.getD t default).ptr = 0)
    (hbelow : ∀ j, j < t → (l.getD j default).ptr ≠ 0) :
    findFreeSlotAux l i = i + t := by
  induction l generalizing t i with
  | nil => simp at ht
  | cons a rest ih =>
      by_cases ha : a.ptr = 0
      · have ht0 : t = 0 := by
          by_contra hne
          exact hbelow 0 (by omega) (by simpa using ha)
        simp [findFreeSlotAux, ha, ht0]
      · have ht0 : t ≠ 0 := by
          intro h0
          rw [h0] at hz
          simp at hz
          exact ha hz
        obtain ⟨t1, rfl⟩ : ∃ t1, t = t1 + 1 := ⟨t - 1, by omega⟩
        have hrec := ih t1 (i + 1) (by simp only [List.length_cons] at ht; omega)
          (by simpa using hz)
          (fun j hj => by simpa using hbelow (j + 1) (by omega))
        simp [findFreeSlotAux, ha, hrec]
        omega

/-- Lemma: reading the dropped-by-one slot vector shifts the index. -/
theorem getD_drop_one (l : List ResourceState) (j : Nat) :
    (l.drop 1).getD j default = l.getD (1 + j) default := by
  simp [List.getD_eq_getElem?_getD, List.getElem?_drop, Nat.add_comm]

/-- Lemma: when slot `idx` (in range, `idx ≥ 1`) is free and all slots
strictly below it are live, the pool's free-slot scan returns `idx`. -/
theorem findFreeSlot_eq (p : ResourcePool) (idx : Nat) (h1 : 0 < idx)
    (hlen : p.resources.length = MAX_NUM_RESOURCES + 1)
    (h2 : idx ≤ MAX_NUM_RESOURCES)
    (hz : (p.resources.getD idx default).ptr = 0)
    (hbelow : ∀ j, 0 < j → j < idx → (p.resources.getD j default).ptr ≠ 0) :
    p.findFreeSlot = idx := by
  unfold ResourcePool.findFreeSlot
  have hspec := findFreeSlotAux_spec (p.resources.drop 1) (idx - 1) 1
    (by simp [hlen]; unfold MAX_NUM_RESOURCES at h2 ⊢; omega)
    (by rw [getD_drop_one, (by omega : 1 + (idx - 1) = idx)]; exact hz)
    (fun j hj => by
      rw [getD_drop_one]
      exact hbelow (1 + j) (by omega) (by omega))
  rw [hspec]
  omega

/-- Lemma: validation succeeds on the current-generation live handle
described by the invariant. -/
theorem validate_of_slotInv (idx g : Nat) (s : ResourcePool × Dx12ResourceHandle)
    (hinv : SlotInv idx g s) : validate_resource_state s.1 ⟨idx, g⟩ = true := by
  obtain ⟨_, _, _, h1, h2, _, hgen, hptr, _⟩ := hinv
  rw [validate_resource_state_iff]
  exact ⟨h1, h2, hgen.symm, hptr⟩

/-- Lemma: destroying a validating handle nulls the slot's pointer and
leaves the generation vector untouched. -/
theorem destroy_resource_spec (p : ResourcePool) (handle : Dx12ResourceHandle)
    (hv : validate_resource_state p handle = true) :
    destroy_resource p handle 0 =
      some { p with resources := p.resources.set handle.index ⟨0, 0, 0⟩ } := by
  unfold destroy_resource
  simp [hv]
  rfl

/-- Lemma: when the free-slot scan returns the in-range index `idx`, `add`
stores the payload there, bumps the slot's generation modulo 2^16 and
returns the handle of the new generation. -/
theorem add_spec (p : ResourcePool) (r st fmt idx : Nat)
    (hfind : p.findFreeSlot = idx) (h1 : 0 < idx) (h2 : idx ≤ MAX_NUM_RESOURCES) :
    p.add r st fmt =
      some (⟨idx, (p.generations.getD idx 0 + 1) % 65536⟩,
        { resources := p.resources.set idx ⟨r, st, fmt⟩
          generations := p.generations.set idx ((p.generations.getD idx 0 + 1) % 65536) }) := by
  unfold ResourcePool.add
  rw [hfind]
  simp [h1, h2]

/-- Lemma: one reuse cycle succeeds on an invariant state and bumps the
slot's generation by one modulo 2^16, re-establishing the invariant. -/
theorem reuseCycle_spec (idx g : Nat) (s : ResourcePool × Dx12ResourceHandle)
    (hinv : SlotInv idx g s) :
    reuseCycles 1 s = some
      (({ resources := (s.1.resources.set idx ⟨0, 0, 0⟩).set idx ⟨7, 0, 0⟩
          generations := s.1.generations.set idx ((g + 1) % 65536) } : ResourcePool),
        (⟨idx, (g + 1) % 65536⟩ : Dx12ResourceHandle)) ∧
    SlotInv idx ((g + 1) % 65536)
      (({ resources := (s.1.resources.set idx ⟨0, 0, 0⟩).set idx ⟨7, 0, 0⟩
          generations := s.1.generations.set idx ((g + 1) % 65536) } : ResourcePool),
        (⟨idx, (g + 1) % 65536⟩ : Dx12ResourceHandle)) := by
  obtain ⟨hh, hlr, hlg, h1, h2, hg, hgen, hptr, hbelow⟩ := hinv
  have hv : validate_resource_state s.1 ⟨idx, g⟩ = true :=
    validate_of_slotInv idx g s ⟨hh, hlr, hlg, h1, h2, hg, hgen, hptr, hbelow⟩
  have hidxlt : idx < s.1.resources.length := by omega
  have hidxltg : idx < s.1.generations.length := by omega
  have hdestroy : destroy_resource s.1 s.2 0 =
      some { s.1 with resources := s.1.resources.set idx ⟨0, 0, 0⟩ } := by
    rw [hh]
    exact destroy_resource_spec s.1 ⟨idx, g⟩ hv
  set pd : ResourcePool := { s.1 with resources := s.1.resources.set idx ⟨0, 0, 0⟩ } with hpd
  have hfind : pd.findFreeSlot = idx := by
    apply findFreeSlot_eq pd idx h1
    · simp [hpd, hlr]
    · exact h2
    · rw [hpd]
      simp only []
      rw [getD_set_self _ _ _ _ hidxlt]
    · intro j hj0 hji
      rw [hpd]
      simp only []
      rw [getD_set_ne _ _ _ _ _ (by omega)]
      exact hbelow j hj0 hji
  have hgen_pd : pd.generations.getD idx 0 = g := by
    rw [hpd]; exact hgen
  have hadd := add_spec pd 7 0 0 idx hfind h1 h2
  rw [hgen_pd] at hadd
  constructor
  · show reuseCycles 1 s = _
    unfold reuseCycles reuseCycles
    unfold reuseCycle
    rw [hdestroy]
    simp [hadd]
  · refine ⟨rfl, ?_, ?_, h1, h2, Nat.mod_lt _ (by omega), ?_, ?_, ?_⟩
    · simp [hpd, hlr]
    · simp [hpd, hlg]
    · show (pd.generations.set idx ((g + 1) % 65536)).getD idx 0 = (g + 1) % 65536
      exact getD_set_self _ _ _ _ (by simp [hpd]; omega)
    · show ((pd.resources.set idx ⟨7, 0, 0⟩).getD idx default).ptr ≠ 0
      rw [getD_set_self _ _ _ _ (by simp [hpd]; omega)]
      simp
    · intro j hj0 hji
      show ((pd.resources.set idx ⟨7, 0, 0⟩).getD j default).ptr ≠ 0
      rw [getD_set_ne _ _ _ _ _ (by omega), hpd]
      simp only []
      rw [getD_set_ne _ _ _ _ _ (by omega)]
      exact hbelow j hj0 hji

/-- Lemma: extracting the single cycle from `reuseCycles 1`. -/
theorem reuseCycle_of_cycles_one (s s1 : ResourcePool × Dx12ResourceHandle)
    (h : reuseCycles 1 s = some s1) : reuseCycle s = some s1 := by
  unfold reuseCycles reuseCycles at h
  cases hc : reuseCycle s with
  | none => rw [hc] at h; exact absurd h (by simp)
  | some s2 => rw [hc] at h; exact h

/-- Lemma: `k` reuse cycles on an invariant state succeed and advance the
slot's generation counter by `k` modulo 2^16. -/
theorem reuseCycles_spec (k idx g : Nat) (s : ResourcePool × Dx12ResourceHandle)
    (hinv : SlotInv idx g s) :
    ∃ s', reuseCycles k s = some s' ∧ SlotInv idx ((g + k) % 65536) s' := by
  induction k generalizing g s with
  | zero =>
      refine ⟨s, rfl, ?_⟩
      have hg : g < 65536 := hinv.2.2.2.2.2.1
      rw [Nat.add_zero, Nat.mod_eq_of_lt hg]
      exact hinv
  | succ k ih =>
      obtain ⟨hcyc, hinv1⟩ := reuseCycle_spec idx g s hinv
      have hc1 := reuseCycle_of_cycles_one s _ hcyc
      obtain ⟨s', hrun, hinv2⟩ := ih ((g + 1) % 65536) _ hinv1
      refine ⟨s', ?_, ?_⟩
      · unfold reuseCycles
        rw [hc1]
        exact hrun
      · have : ((g + 1) % 65536 + k) % 65536 = (g + (k + 1)) % 65536 := by
          rw [Nat.mod_add_mod]
          congr 1
          omega
        rwa [this] at hinv2
/-- Lemma: adding a `u16` step `k` that is not a multiple of 2^16 always
changes a `u16` value modulo 2^16. -/
theorem mod_shift_ne (g k : Nat) (hg : g < 65536) (hk : ¬ 65536 ∣ k) :
    (g + k) % 65536 ≠ g := by
  have hrk : k % 65536 ≠ 0 := fun h0 => hk (Nat.dvd_of_mod_eq_zero h0)
  have hrlt : k % 65536 < 65536 := Nat.mod_lt _ (by omega)
  have h1 : (g + k) % 65536 = (g + k % 65536) % 65536 := by
    conv_lhs => rw [Nat.add_mod]
    rw [Nat.mod_eq_of_lt hg]
  rw [h1]
  rcases Nat.lt_or_ge (g + k % 65536) 65536 with hlt | hge
  · rw [Nat.mod_eq_of_lt hlt]
    omega
  · rw [Nat.mod_eq_sub_mod hge, Nat.mod_eq_of_lt (by omega)]
    omega

/-- The pool after the very first `add` on a fresh pool: slot 1 live with
the modelled resource address 7 and generation 1. -/
def poolAfterFirstAdd : ResourcePool :=
  { resources := (List.replicate 257 (default : ResourceState)).set 1 ⟨7, 0, 0⟩
    generations := (List.replicate 257 0).set 1 1 }

/-- Lemma: the first `add` on a fresh pool fills slot 1 and issues the
handle of generation 1. -/
theorem first_add_on_new_pool :
    ResourcePool.new.add 7 0 0 = some (⟨1, 1⟩, poolAfterFirstAdd) := by
  decide

/-- Lemma: the invariant holds for slot 1 right after the first `add`. -/
theorem slotInv_start : SlotInv 1 1 (poolAfterFirstAdd, ⟨1, 1⟩) := by
  refine ⟨rfl, by decide, by decide, by decide, by decide, by decide, by decide,
    by decide, ?_⟩
  intro j hj0 hj1
  omega

/-- Claim C2 counterexample: start from the handle of generation 1 issued by
the first `add` into slot 1 of a fresh pool, then perform 65536 subsequent
destroy/add pairs on that slot (each `add` reuses slot 1).  The claim says
the stale handle fails validation after any subsequent add that reuses the
slot; after the 65536th reuse the `u16` generation counter has wrapped back
to 1 and the stale handle passes validation again. -/
theorem stale_handle_revalidates_at_wrap :
    (reuseCycles 65536 (poolAfterFirstAdd, ⟨1, 1⟩)).map
      (fun s => validate_resource_state s.1 ⟨1, 1⟩) = some true := by
  obtain ⟨s', hrun, hinv⟩ := reuseCycles_spec 65536 1 1 _ slotInv_start
  rw [hrun]
  have hm : (1 + 65536) % 65536 = 1 := by norm_num
  rw [hm] at hinv
  simp [validate_of_slotInv 1 1 s' hinv]

/-- Claim C2, amended: for any live current-generation handle of a slot
(described by `SlotInv`), a destroy of that slot nulls the slot's liveness
pointer, leaves the generation vector untouched, and makes the handle fail
validation; and after `k` subsequent destroy/add reuse cycles of the slot,
for every `k` that is not a multiple of 2^16 the stale handle still fails
validation, because each `add` increments the slot's `u16` generation
modulo 2^16 (so the generation differs from the stale one whenever fewer
than 2^16 reuses have occurred, but wraps back after exactly 2^16). -/
theorem stale_handle_fails_validation (idx g : Nat)
    (s : ResourcePool × Dx12ResourceHandle) (hinv : SlotInv idx g s) :
    (destroy_resource s.1 s.2 0 =
      some { s.1 with resources := s.1.resources.set idx ⟨0, 0, 0⟩ } ∧
     ({ s.1 with resources := s.1.resources.set idx ⟨0, 0, 0⟩ } : ResourcePool).generations =
       s.1.generations ∧
     validate_resource_state
       { s.1 with resources := s.1.resources.set idx ⟨0, 0, 0⟩ } ⟨idx, g⟩ = false) ∧
    (∀ k s', ¬ 65536 ∣ k → reuseCycles k s = some s' →
      validate_resource_state s'.1 ⟨idx, g⟩ = false) := by
  obtain ⟨hh, hlr, hlg, h1, h2, hg, hgen, hptr, hbelow⟩ := hinv
  have hidxlt : idx < s.1.resources.length := by omega
  constructor
  · refine ⟨?_, rfl, ?_⟩
    · rw [hh]
      exact destroy_resource_spec s.1 ⟨idx, g⟩
        (validate_of_slotInv idx g s ⟨hh, hlr, hlg, h1, h2, hg, hgen, hptr, hbelow⟩)
    · have hptr0 : (s.1.resources.set idx (⟨0, 0, 0⟩ : ResourceState)).getD idx default =
          ⟨0, 0, 0⟩ := getD_set_self _ _ _ _ hidxlt
      unfold validate_resource_state
      simp only [List.getD_eq_getElem?_getD] at hptr0
      simp [hptr0]
  · intro k s' hk hrun
    obtain ⟨s'', hrun', hinv'⟩ :=
      reuseCycles_spec k idx g s ⟨hh, hlr, hlg, h1, h2, hg, hgen, hptr, hbelow⟩
    rw [hrun] at hrun'
    injection hrun' with he
    subst he
    have hgen' : s'.1.generations.getD idx 0 = (g + k) % 65536 :=
      hinv'.2.2.2.2.2.2.1
    have hne : g ≠ (g + k) % 65536 := fun he => (mod_shift_ne g k hg hk) he.symm
    unfold validate_resource_state
    simp only [List.getD_eq_getElem?_getD] at hgen'
    simp [hgen', hne]

/-- Claim C2 witness: the amended statement at slot 1 of the concrete pool,
with one reuse cycle: the stale generation-1 handle fails validation both
right after the destroy and after the destroy/add reuse. -/
theorem stale_handle_fails_validation_witness :
    validate_resource_state
      { poolAfterFirstAdd with
        resources := poolAfterFirstAdd.resources.set 1 ⟨0, 0, 0⟩ } ⟨1, 1⟩ = false ∧
    (reuseCycles 1 (poolAfterFirstAdd, ⟨1, 1⟩)).map
      (fun s => validate_resource_state s.1 ⟨1, 1⟩) = some false := by
  constructor
  · exact (stale_handle_fails_validation 1 1 (poolAfterFirstAdd, ⟨1, 1⟩)
      slotInv_start).1.2.2
  · obtain ⟨s', hrun, _⟩ := reuseCycles_spec 1 1 1 _ slotInv_start
    rw [hrun]
    have hval := (stale_handle_fails_validation 1 1 (poolAfterFirstAdd, ⟨1, 1⟩)
      slotInv_start).2 1 s' (by decide) hrun
    simp [hval]

/-- Claim C9: each slot's generation counter is a `u16` incremented once per
`add` into the slot, so after `k` destroy/add reuses it holds
`(g + k) % 2^16` (first conjunct); in particular after exactly 65536 adds
into the same slot, interleaved with destroys, the counter has wrapped back
to the previously issued value 1 and the stale generation-1 handle passes
generation validation again (second conjunct): the increment overflows the
`u16` at the 65535 boundary instead of growing without bound. -/
theorem generation_counter_wraps_u16 :
    (∀ idx g k : Nat, ∀ s s' : ResourcePool × Dx12ResourceHandle,
      SlotInv idx g s → reuseCycles k s = some s' →
      s'.1.generations.getD idx 0 = (g + k) % 65536) ∧
    (reuseCycles 65536 (poolAfterFirstAdd, ⟨1, 1⟩)).map
      (fun s => (s.1.generations.getD 1 0, validate_resource_state s.1 ⟨1, 1⟩)) =
      some (1, true) := by
  constructor
  · intro idx g k s s' hinv hrun
    obtain ⟨s'', hrun', hinv'⟩ := reuseCycles_spec k idx g s hinv
    rw [hrun] at hrun'
    injection hrun' with he
    subst he
    exact hinv'.2.2.2.2.2.2.1
  · obtain ⟨s', hrun, hinv⟩ := reuseCycles_spec 65536 1 1 _ slotInv_start
    rw [hrun]
    have hm : (1 + 65536) % 65536 = 1 := by norm_num
    rw [hm] at hinv
    have hgen1 : s'.1.generations.getD 1 0 = 1 := hinv.2.2.2.2.2.2.1
    simp only [List.getD_eq_getElem?_getD] at hgen1
    simp [hgen1, validate_of_slotInv 1 1 s' hinv]

/-- Claim C9 witness: the general counter law at slot 1 of the concrete
pool with one reuse cycle: the generation becomes `(1 + 1) % 65536 = 2`. -/
theorem generation_counter_wraps_u16_witness :
    (reuseCycles 1 (poolAfterFirstAdd, ⟨1, 1⟩)).map
      (fun s => s.1.generations.getD 1 0) = some 2 := by
  obtain ⟨s', hrun, _⟩ := reuseCycles_spec 1 1 1 _ slotInv_start
  rw [hrun]
  have hg := generation_counter_wraps_u16.1 1 1 1 _ s' slotInv_start hrun
  simp only [List.getD_eq_getElem?_getD] at hg
  simp [hg]

/-! ## Claims C5 and C7 on the pipeline cache -/

/-- Lemma: inserting a fresh binding and pushing past a non-matching head
commute. -/
theorem mapInsert_cons_ne (a : Nat × Dx12PipelineHandle)
    (m : List (Nat × Dx12PipelineHandle)) (k : Nat) (v : Dx12PipelineHandle)
    (ha : (a.1 == k) = false) :
    mapInsert (a :: m) k v = a :: mapInsert m k v := by
  unfold mapInsert
  rw [List.find?_cons_of_neg _ (by simp [ha])]
  by_cases hf : (m.find? (fun kv => kv.1 == k)).isSome
  · simp [hf, ha]
    intro h
    rw [h] at ha
    simp at ha
  · simp [hf, ha]

/-- Lemma: looking up the key just inserted finds the inserted value. -/
theorem mapGet_mapInsert_self (m : List (Nat × Dx12PipelineHandle)) (k : Nat)
    (v : Dx12PipelineHandle) : mapGet (mapInsert m k v) k = some v := by
  induction m with
  | nil => simp [mapInsert, mapGet]
  | cons a rest ih =>
      by_cases ha : (a.1 == k) = true
      · unfold mapInsert
        rw [List.find?_cons_of_pos _ (by simp [ha])]
        unfold mapGet
        simp only [Option.isSome_some, if_true, List.map_cons, ha, if_pos]
        rw [List.find?_cons_of_pos _ (by simp)]
      · have ha' : (a.1 == k) = false := by
          cases hx : (a.1 == k) with
          | true => exact absurd hx ha
          | false => rfl
        rw [mapInsert_cons_ne a rest k v ha']
        unfold mapGet
        rw [List.find?_cons_of_neg _ (by simp [ha'])]
        exact ih

/-- Claim C5: get-or-create is idempotent.  If the content hash of the
description with the shader binaries installed is not yet cached, a first
call that returns creates exactly one native pipeline object, and a second
call with the byte-identical description and byte-identical shader binaries
(whatever pointers the device would have handed a fresh creation) finds the
deterministic content hash in the cache map and returns the same handle and
an unchanged pool, creating no native object.  The statement is quantified
over the externally supplied digest function, so it relies only on the hash
being a deterministic function of the hashed content. -/
theorem create_graphics_pipeline_idempotent
    (siphash : List HashWrite → Nat) (psoAddr rsignatureAddr pa2 ra2 : Nat)
    (p p1 : PipelinePool) (desc : GraphicsPsoDesc) (vs_bytecode ps_bytecode : List Nat)
    (h1 : Dx12PipelineHandle) (n1 : Nat)
    (hmiss : mapGet p.map (calc_graphics_pipeline_hash siphash
      { desc with VS := vs_bytecode, PS := ps_bytecode }) = none)
    (hfirst : create_graphics_pipeline siphash psoAddr rsignatureAddr p desc
      vs_bytecode ps_bytecode = some (h1, p1, n1)) :
    n1 = 1 ∧
    create_graphics_pipeline siphash pa2 ra2 p1 desc vs_bytecode ps_bytecode =
      some (h1, p1, 0) := by
  simp only [create_graphics_pipeline] at hfirst ⊢
  rw [hmiss] at hfirst
  split at hfirst
  · rename_i hfound heq
    exact absurd heq (by simp)
  · split at hfirst
    · exact absurd hfirst (by simp)
    · rcases hadd : p.add psoAddr rsignatureAddr with _ | hp
      · rw [hadd] at hfirst
        simp at hfirst
      · obtain ⟨h, padd⟩ := hp
        rw [hadd] at hfirst
        simp only [Option.some.injEq, Prod.mk.injEq] at hfirst
        obtain ⟨h1eq, hpeq, hneq⟩ := hfirst
        subst h1eq
        rw [← hpeq, ← hneq]
        refine ⟨rfl, ?_⟩
        have hget := mapGet_mapInsert_self padd.map
          (calc_graphics_pipeline_hash siphash
            { desc with VS := vs_bytecode, PS := ps_bytecode }) h
        simp [hget]

/-- A concrete render-target blend entry (all fields zero). -/
def sampleRtBlend : RtBlendDesc := ⟨0, 0, 0, 0, 0, 0, 0, 0, 0, 0⟩

/-- A concrete graphics pipeline description used in witnesses. -/
def sampleDesc : GraphicsPsoDesc :=
  { VS := []
    PS := []
    BlendState := { AlphaToCoverageEnable := 0, IndependentBlendEnable := 0,
                    RenderTarget := fun _ => sampleRtBlend }
    SampleMask := 0
    RasterizerState := ⟨0, 0, 0, 0, 0, 0, 0, 0, 0, 0, 0⟩
    DepthStencilState := ⟨0, 0, 0, 0, 0, 0, ⟨0, 0, 0, 0⟩, ⟨0, 0, 0, 0⟩⟩
    InputLayout := []
    IBStripCutValue := 0
    PrimitiveTopologyType := 0
    NumRenderTargets := 0
    RTVFormats := fun _ => 0
    DSVFormat := 0
    SampleDescCount := 0
    SampleDescQuality := 0 }

/-- The pipeline pool after one fresh creation on an empty pool under the
digest function that is constantly 42: slot 1 holds the two native
pointers 1 and 2, and the map binds 42 to the new handle. -/
def poolAfterFirstPipeline : PipelinePool :=
  { pipelines := (List.replicate 257 (default : PipelineState)).set 1 ⟨1, 2⟩
    generations := (List.replicate 257 0).set 1 1
    map := [(42, ⟨1, 1⟩)] }

/-- Claim C5 witness: with the constant-42 digest, creating on a fresh pool
returns handle (1, 1) having created one native object, and the second
identical call returns the same handle and leaves the pool unchanged,
creating none. -/
theorem create_graphics_pipeline_idempotent_witness :
    create_graphics_pipeline (fun _ => 42) 1 2 poolAfterFirstPipeline
      sampleDesc [3] [4] = some (⟨1, 1⟩, poolAfterFirstPipeline, 0) :=
  (create_graphics_pipeline_idempotent (fun _ => 42) 1 2 1 2 PipelinePool.new
    poolAfterFirstPipeline sampleDesc [3] [4] ⟨1, 1⟩ 1 (by decide) (by decide)).2

/-- A concrete valid pipeline pool whose cache map has two distinct keys
both bound to the live handle (1, 1) of slot 1. -/
def pipelinePoolTwoKeys : PipelinePool :=
  { pipelines := (List.replicate 257 (default : PipelineState)).set 1 ⟨5, 6⟩
    generations := (List.replicate 257 0).set 1 1
    map := [(10, ⟨1, 1⟩), (20, ⟨1, 1⟩)] }

/-- Claim C7 counterexample: on a pool where exactly two cache entries map
to the valid handle, the claim says destroy_pipeline must fail fatally; the
code's reverse-lookup loop breaks at the first match, removes only that
entry and succeeds, leaving the second stale entry in the map. -/
theorem destroy_pipeline_two_matches_not_fatal :
    (pipelinePoolTwoKeys.map.filter (fun kv => kv.2 == ⟨1, 1⟩)).length = 2 ∧
    destroy_pipeline pipelinePoolTwoKeys ⟨1, 1⟩ 0 0 =
      some { pipelines := (List.replicate 257 (default : PipelineState)).set 1 ⟨0, 0⟩
             generations := (List.replicate 257 0).set 1 1
             map := [(20, ⟨1, 1⟩)] } := by
  constructor
  · decide
  · decide

/-- Claim C7, amended: for a valid pipeline handle, destroy_pipeline scans
the cache map for the first entry whose value is the handle: when no entry
matches it fails fatally (the sentinel key 0 trips the assertion), and when
at least one entry matches (with a non-zero key) it removes exactly that
first matching entry — further entries mapping to the same handle are not
detected — releases both native objects (nulling the slot, leaving the
generation untouched) and asserts both released reference counts are zero,
failing fatally when either is non-zero. -/
theorem destroy_pipeline_first_match (p : PipelinePool)
    (handle : Dx12PipelineHandle)
    (hv : validate_pipeline_state p handle = true) :
    (p.map.find? (fun kv => kv.2 == handle) = none →
      ∀ rc1 rc2 : Nat, destroy_pipeline p handle rc1 rc2 = none) ∧
    (∀ kv0 : Nat × Dx12PipelineHandle,
      p.map.find? (fun kv => kv.2 == handle) = some kv0 → kv0.1 ≠ 0 →
      destroy_pipeline p handle 0 0 =
        some { pipelines := p.pipelines.set handle.index ⟨0, 0⟩
               generations := p.generations
               map := p.map.filter (fun kv => ¬ kv.1 = kv0.1) } ∧
      (∀ rc1 rc2 : Nat, ¬ (rc1 = 0 ∧ rc2 = 0) →
        destroy_pipeline p handle rc1 rc2 = none)) := by
  constructor
  · intro hnone rc1 rc2
    simp only [destroy_pipeline, findKeyFor, hv, hnone]
    simp
  · intro kv0 hfound hk0
    constructor
    · simp only [destroy_pipeline, findKeyFor, hv, hfound]
      simp [hk0]
    · intro rc1 rc2 hrc
      simp only [destroy_pipeline, findKeyFor, hv, hfound]
      simp [hk0, hrc]

/-- Claim C7 witness: the amended statement on the concrete two-key pool:
the first matching entry (key 10) is removed and the call succeeds with
zero refcounts, while a non-zero released refcount is fatal. -/
theorem destroy_pipeline_first_match_witness :
    destroy_pipeline pipelinePoolTwoKeys ⟨1, 1⟩ 0 0 =
      some { pipelines := pipelinePoolTwoKeys.pipelines.set 1 ⟨0, 0⟩
             generations := pipelinePoolTwoKeys.generations
             map := pipelinePoolTwoKeys.map.filter (fun kv => ¬ kv.1 = 10) } ∧
    destroy_pipeline pipelinePoolTwoKeys ⟨1, 1⟩ 1 0 = none := by
  have h := destroy_pipeline_first_match pipelinePoolTwoKeys ⟨1, 1⟩ (by decide)
  exact ⟨(h.2 (10, ⟨1, 1⟩) (by decide) (by decide)).1,
         (h.2 (10, ⟨1, 1⟩) (by decide) (by decide)).2 1 0 (by simp)⟩
